import Mathlib

/-!
Verification of the core of the AI Translator repository: the response
contract validator (`src/services/gemini.ts`), the PCM audio decoder
(`src/services/gemini.ts`), and the translation request orchestrator,
playback controller and history handling (`src/App.tsx`, types from
`src/types.ts`).  Every definition below is a shallow embedding of the
corresponding TypeScript, with platform behaviour (`JSON.parse`,
`Int16Array`, `AudioContext.createBuffer`, React effect cleanup) modelled
where the repository's code relies on it.
-/

/-! ## JSON values and a model of the platform's `JSON.parse`

`parseGeminiResponse` (src/services/gemini.ts lines 8-26) is built on the
host's `JSON.parse`.  We model JSON values as an inductive type and
`JSON.parse` as a fuelled recursive-descent parser over the character list
of the input, following the ECMAScript JSON grammar: the four whitespace
characters, `null`/`true`/`false`, strings with escape sequences, numbers
(kept as their lexeme), arrays and objects, and a whole-input check.  -/

inductive Json where
  | null : Json
  | bool (b : Bool) : Json
  | num (lexeme : String) : Json
  | str (s : String) : Json
  | arr (items : List Json) : Json
  | obj (members : List (String × Json)) : Json
deriving Repr

/-- The JSON whitespace characters (space, tab, line feed, carriage return). -/
def isJsonWs (c : Char) : Bool :=
  c = ' ' || c = '\t' || c = '\n' || c = '\r'

/-- Drop leading JSON whitespace. -/
def skipWs : List Char → List Char
  | [] => []
  | c :: cs => if isJsonWs c then skipWs cs else c :: cs

/-- Value of a hexadecimal digit. -/
def hexVal (c : Char) : Option Nat :=
  if '0' ≤ c ∧ c ≤ '9' then some (c.toNat - '0'.toNat)
  else if 'a' ≤ c ∧ c ≤ 'f' then some (c.toNat - 'a'.toNat + 10)
  else if 'A' ≤ c ∧ c ≤ 'F' then some (c.toNat - 'A'.toNat + 10)
  else none

/-- Body of a JSON string after the opening quote: ends at the closing
quote, handles the escape sequences, rejects raw control characters.
A `\u` escape is turned into the character of its code point. -/
def parseStringBody : Nat → List Char → Option (List Char × List Char)
  | 0, _ => none
  | _, [] => none
  | fuel + 1, c :: cs =>
    if c = '"' then some ([], cs)
    else if c = '\\' then
      match cs with
      | [] => none
      | e :: cs1 =>
        let cont (ch : Char) (rest : List Char) : Option (List Char × List Char) :=
          (parseStringBody fuel rest).map fun p => (ch :: p.1, p.2)
        if e = '"' then cont '"' cs1
        else if e = '\\' then cont '\\' cs1
        else if e = '/' then cont '/' cs1
        else if e = 'b' then cont '\x08' cs1
        else if e = 'f' then cont '\x0c' cs1
        else if e = 'n' then cont '\n' cs1
        else if e = 'r' then cont '\r' cs1
        else if e = 't' then cont '\t' cs1
        else if e = 'u' then
          match cs1 with
          | h1 :: h2 :: h3 :: h4 :: cs2 =>
            match hexVal h1, hexVal h2, hexVal h3, hexVal h4 with
            | some a, some b, some c2, some d =>
              cont (Char.ofNat (((a * 16 + b) * 16 + c2) * 16 + d)) cs2
            | _, _, _, _ => none
          | _ => none
        else none
    else if c.toNat < 32 then none
    else (parseStringBody fuel cs).map fun p => (c :: p.1, p.2)

/-- Longest prefix of decimal digits, with the remainder. -/
def lexDigits : List Char → List Char × List Char
  | [] => ([], [])
  | c :: cs =>
    if c.isDigit then
      let p := lexDigits cs
      (c :: p.1, p.2)
    else ([], c :: cs)

/-- Optional exponent part of a JSON number. -/
def parseExpPart (acc : List Char) (cs : List Char) : Option (List Char × List Char) :=
  match cs with
  | [] => some (acc, [])
  | e :: r =>
    if e = 'e' ∨ e = 'E' then
      let sp : List Char × List Char :=
        match r with
        | '+' :: r1 => (['+'], r1)
        | '-' :: r1 => (['-'], r1)
        | _ => ([], r)
      match sp.2 with
      | d :: _ =>
        if d.isDigit then
          let p := lexDigits sp.2
          some (acc ++ e :: sp.1 ++ p.1, p.2)
        else none
      | [] => none
    else some (acc, cs)

/-- Optional fraction part of a JSON number, then the exponent part. -/
def parseFracPart (acc : List Char) (cs : List Char) : Option (List Char × List Char) :=
  match cs with
  | '.' :: r =>
    match r with
    | d :: _ =>
      if d.isDigit then
        let p := lexDigits r
        parseExpPart (acc ++ '.' :: p.1) p.2
      else none
    | [] => none
  | _ => parseExpPart acc cs

/-- A JSON number lexeme: optional minus, integer part without a leading
zero (except `0` itself), optional fraction and exponent. -/
def parseNumberLexeme (cs : List Char) : Option (List Char × List Char) :=
  let sp : List Char × List Char :=
    match cs with
    | '-' :: r => (['-'], r)
    | _ => ([], cs)
  match sp.2 with
  | [] => none
  | c :: r =>
    if c = '0' then parseFracPart (sp.1 ++ ['0']) r
    else if c.isDigit then
      let p := lexDigits r
      parseFracPart (sp.1 ++ c :: p.1) p.2
    else none

mutual

/-- One JSON value, preceded by optional whitespace. -/
def parseValue : Nat → List Char → Option (Json × List Char)
  | 0, _ => none
  | fuel + 1, cs =>
    match skipWs cs with
    | 'n' :: 'u' :: 'l' :: 'l' :: r => some (.null, r)
    | 't' :: 'r' :: 'u' :: 'e' :: r => some (.bool true, r)
    | 'f' :: 'a' :: 'l' :: 's' :: 'e' :: r => some (.bool false, r)
    | '"' :: r => (parseStringBody (r.length + 1) r).map fun p => (.str (String.mk p.1), p.2)
    | '[' :: r => parseArrayItems fuel r
    | '\x7b' :: r => parseObjectMembers fuel r
    | other => (parseNumberLexeme other).map fun p => (.num (String.mk p.1), p.2)

/-- Items of an array after the opening bracket. -/
def parseArrayItems : Nat → List Char → Option (Json × List Char)
  | 0, _ => none
  | fuel + 1, cs =>
    match skipWs cs with
    | ']' :: r => some (.arr [], r)
    | cs1 =>
      match parseValue fuel cs1 with
      | none => none
      | some (v, r1) => parseArrayRest fuel [v] r1

/-- Remaining items of an array after the first value. -/
def parseArrayRest : Nat → List Json → List Char → Option (Json × List Char)
  | 0, _, _ => none
  | fuel + 1, acc, cs =>
    match skipWs cs with
    | ',' :: r =>
      match parseValue fuel r with
      | none => none
      | some (v, r1) => parseArrayRest fuel (acc ++ [v]) r1
    | ']' :: r => some (.arr acc, r)
    | _ => none

/-- Members of an object after the opening brace. -/
def parseObjectMembers : Nat → List Char → Option (Json × List Char)
  | 0, _ => none
  | fuel + 1, cs =>
    match skipWs cs with
    | '\x7d' :: r => some (.obj [], r)
    | '"' :: r =>
      match parseStringBody (r.length + 1) r with
      | none => none
      | some (k, r1) => parseMemberValue fuel (String.mk k) [] r1
    | _ => none

/-- Colon and value of one object member, then the rest of the object. -/
def parseMemberValue : Nat → String → List (String × Json) → List Char → Option (Json × List Char)
  | 0, _, _, _ => none
  | fuel + 1, k, acc, cs =>
    match skipWs cs with
    | ':' :: r =>
      match parseValue fuel r with
      | none => none
      | some (v, r1) => parseObjectRest fuel (acc ++ [(k, v)]) r1
    | _ => none

/-- Remaining members of an object after a completed member. -/
def parseObjectRest : Nat → List (String × Json) → List Char → Option (Json × List Char)
  | 0, _, _ => none
  | fuel + 1, acc, cs =>
    match skipWs cs with
    | ',' :: r =>
      match skipWs r with
      | '"' :: r1 =>
        match parseStringBody (r1.length + 1) r1 with
        | none => none
        | some (k, r2) => parseMemberValue fuel (String.mk k) acc r2
      | _ => none
    | '\x7d' :: r => some (.obj acc, r)
    | _ => none

end

/-- Model of the platform's `JSON.parse`: parse one value and require the
rest of the input to be whitespace.  The fuel is generous: every recursive
descent step either consumes input or is one of boundedly many steps per
consumed character. -/
def jsonParse (s : String) : Except String Json :=
  match parseValue (3 * s.data.length + 3) s.data with
  | some (v, rest) =>
    if (skipWs rest).isEmpty then .ok v
    else .error "Unexpected non-whitespace character after JSON data"
  | none => .error "Unexpected token in JSON"

/-- Field lookup on an object value (first binding wins, as in a parsed
JavaScript object read). -/
def Json.getField : Json → String → Option Json
  | .obj kvs, key => (kvs.find? fun p => p.1 == key).map Prod.snd
  | _, _ => none

/-! ## The response contract validator (src/services/gemini.ts lines 8-26) -/

/-- The substring matched by the regular expression `/\x7b[\s\S]*\x7d/` of
gemini.ts line 17: the earliest possible match start is the first opening
brace, and the greedy any-character star stretches to the last closing
brace after it; when no closing brace follows an opening brace there is no
match. -/
def extractJsonSubstring (cs : List Char) : Option (List Char) :=
  match cs.findIdx? (fun c => c = '\x7b'), cs.reverse.findIdx? (fun c => c = '\x7d') with
  | some i, some jr =>
    let j := cs.length - 1 - jr
    if i < j then some ((cs.drop i).take (j - i + 1)) else none
  | _, _ => none

/-- Shallow embedding of `parseGeminiResponse` (src/services/gemini.ts
lines 8-26): an empty response is rejected outright (`!text`); otherwise a
direct `JSON.parse` is attempted; on failure the brace-delimited substring
is extracted and parsed; if that also fails (or there is no such
substring) the function throws the malformed-response error. -/
def parseGeminiResponse (text : String) : Except String Json :=
  if text = "" then .error "Empty response from AI"
  else
    match jsonParse text with
    | .ok v => .ok v
    | .error _ =>
      match extractJsonSubstring text.data with
      | some sub =>
        match jsonParse (String.mk sub) with
        | .ok v => .ok v
        | .error _ => .error "Invalid translation response format"
      | none => .error "Invalid translation response format"

/-! ## The audio decoder (src/services/gemini.ts lines 143-160)

`decodeAudioData` views the raw byte buffer as an `Int16Array`, computes
`frameCount = dataInt16.length / numChannels`, allocates an `AudioBuffer`
via `ctx.createBuffer(numChannels, frameCount, sampleRate)` and fills each
channel with `dataInt16[i * numChannels + channel] / 32768.0`.  The
platform semantics the code relies on are modelled explicitly:

* `new Int16Array(data.buffer)` throws a `RangeError` when the byte length
  of the buffer is not a multiple of 2 (ECMAScript typed-array views);
  the byte buffers of this program own their `ArrayBuffer` exactly (they
  are freshly allocated by the base64 `decode` helper).
* `createBuffer` converts its `length` argument through WebIDL
  `unsigned long`, truncating the fractional JavaScript division, and
  throws `NotSupportedError` when `numberOfChannels` or `length` is zero
  (Web Audio API: both must be at least 1).  Sample rates are assumed in
  the supported range; the call sites always pass 24000.  The loop bound
  `i < frameCount` compares against the untruncated quotient, but writes
  at `i ≥ ⌊frameCount⌋` are out-of-bounds stores on the channel's
  `Float32Array` and are silently discarded, so the resulting channel data
  has exactly `⌊frameCount⌋` samples, all read in bounds.
* Division of a 16-bit signed integer by 32768.0 is exact in binary
  floating point, so samples are modelled as rationals.  -/

/-- Signed 16-bit little-endian value of a byte pair (low byte first).
The bytes are reduced mod 256, the storage invariant of `Uint8Array`. -/
def toInt16 (lo hi : Nat) : Int :=
  let v := lo % 256 + 256 * (hi % 256)
  if v < 32768 then (v : Int) else (v : Int) - 65536

/-- The `Int16Array` view of the byte buffer (gemini.ts line 149): sample
`k` is the little-endian byte pair at positions `2k`, `2k+1`.  Only taken
after the even-length check of `decodeAudioData`. -/
def bytesToInt16 (data : List Nat) : List Int :=
  (List.range (data.length / 2)).map fun k =>
    toInt16 (data.getD (2 * k) 0) (data.getD (2 * k + 1) 0)

/-- Shallow embedding of `decodeAudioData` (gemini.ts lines 143-160); the
`AudioContext` argument is elided — it only supplies `createBuffer`, whose
semantics are modelled here.  The result is the per-channel sample data of
the returned `AudioBuffer`. -/
def decodeAudioData (data : List Nat) (sampleRate : Nat) (numChannels : Nat) :
    Except String (List (List ℚ)) :=
  if data.length % 2 ≠ 0 then
    .error "RangeError: byte length of Int16Array should be a multiple of 2"
  else
    let dataInt16 := bytesToInt16 data
    let frameCount := dataInt16.length / numChannels
    if numChannels = 0 ∨ frameCount = 0 then
      .error "NotSupportedError: createBuffer requires at least one channel and one frame"
    else
      .ok ((List.range numChannels).map fun channel =>
        (List.range frameCount).map fun i =>
          ((dataInt16.getD (i * numChannels + channel) 0 : Int) : ℚ) / 32768)

/-! ## Data model (src/types.ts) -/

/-- The `tts` sub-object of a translation result. -/
structure TtsConfig where
  enabled : Bool
  voice_language_code : String
  speak_text : String
deriving DecidableEq, Repr

/-- The `ui_suggestions` sub-object of a translation result. -/
structure UiSuggestions where
  primary_actions : List String
  microcopy : List String
deriving DecidableEq, Repr

/-- The `TranslationResult` interface of src/types.ts. -/
structure TranslationResult where
  detected_language : String
  source_country : String
  source_language : String
  target_country : String
  target_language : String
  translation : String
  alternatives : List String
  notes : String
  ui_suggestions : UiSuggestions
  tts : TtsConfig
deriving DecidableEq, Repr

/-- The `HistoryItem` interface of src/types.ts. -/
structure HistoryItem where
  id : String
  timestamp : Nat
  sourceText : String
  translation : String
  sourceLang : String
  targetLang : String
  is_favorite : Bool
deriving DecidableEq, Repr

/-! ## The orchestrator state (src/App.tsx)

The `useState` fields of the `App` component that the orchestrator, the
playback controller and the history handling read and write, plus the
`debounceTimerRef` timer.  The timer is modelled as the absolute firing
deadline in milliseconds; `user` records whether an authenticated session
is present (the Supabase auth state). -/

structure AppState where
  user : Bool
  sourceText : String
  targetText : String
  detectedLang : String
  alternatives : List String
  notes : String
  history : List HistoryItem
  loading : Bool
  feedback : String
  isSpeaking : Bool
  debounceTimer : Option Nat
deriving DecidableEq, Repr

/-- The component's initial state (the `useState` initialisers). -/
def initialAppState : AppState :=
  { user := false, sourceText := "", targetText := "", detectedLang := "",
    alternatives := [], notes := "", history := [], loading := false,
    feedback := "", isSpeaking := false, debounceTimer := none }

/-- Truth of `!s.trim()` in the source: the string is empty or consists of
JavaScript whitespace only (the ECMAScript `trim` set: ASCII whitespace,
vertical tab, form feed, NBSP, the Unicode space separators, the line and
paragraph separators and the BOM). -/
def isBlank (s : String) : Bool :=
  s.data.all fun c =>
    c = ' ' || c = '\t' || c = '\n' || c = '\r' || c = '\x0b' || c = '\x0c' ||
    c.toNat = 0xa0 || c.toNat = 0x1680 ||
    (0x2000 ≤ c.toNat && c.toNat ≤ 0x200a) ||
    c.toNat = 0x2028 || c.toNat = 0x2029 || c.toNat = 0x202f ||
    c.toNat = 0x205f || c.toNat = 0x3000 || c.toNat = 0xfeff

/-! ## Debounced translation effect (src/App.tsx lines 134-154)

The effect runs on every change of the edit state.  React first runs the
previous effect invocation's cleanup — which clears any pending debounce
timer (lines 151-153) — and then the effect body: when the source text is
blank or no user is authenticated, the displayed result is cleared and no
timer is started (lines 135-141); otherwise a fresh 500 ms timer is
started (lines 143-149; the body's own `clearTimeout` at lines 143-145 is
subsumed by the cleanup).  An edit event is therefore one state update
followed by one effect run. -/

def debounceEffect (st : AppState) (now : Nat) (newText : String) : AppState :=
  let st1 : AppState := { st with sourceText := newText, debounceTimer := none }
  if isBlank newText = true ∨ st1.user = false then
    { st1 with targetText := "", detectedLang := "", alternatives := [], notes := "" }
  else
    { st1 with debounceTimer := some (now + 500) }

/-! ## handleTranslate (src/App.tsx lines 160-200)

The function is split at its suspension point.  `handleTranslateStart` is
the synchronous prefix (lines 161-162): the guard re-checks the source
text and the user and, when it passes, sets the loading flag and issues
the remote call; the returned flag records whether a request was issued.
The two `handleTranslate...` settle functions are the continuation that
runs when the remote call settles.  Note that the continuation applies the
result unconditionally: the component keeps no request identifier and
performs no comparison against a latest-issued request before mutating the
display or inserting into history. -/

def handleTranslateStart (st : AppState) : AppState × Bool :=
  if isBlank st.sourceText = true ∨ st.user = false then (st, false)
  else ({ st with loading := true }, true)

/-- The history prepend performed after a successful insert (src/App.tsx
lines 183-192): the new entry first, capped at 50 entries. -/
def historyPrepend (hist : List HistoryItem) (item : HistoryItem) : List HistoryItem :=
  (item :: hist).take 50

/-- Continuation of `handleTranslate` after `translateText` resolves
(src/App.tsx lines 165-199): apply the result to the display, prepend the
history entry when the Supabase insert succeeded (`insertOk`, with the row
id and creation time assigned by the store), and clear the loading flag.
`srcAtIssue` is the `sourceText` captured by the closure when the request
was issued. -/
def handleTranslateSuccess (st : AppState) (srcAtIssue : String) (r : TranslationResult)
    (insertOk : Bool) (dbId : String) (dbTs : Nat) : AppState :=
  let st1 : AppState :=
    { st with targetText := r.translation, detectedLang := r.detected_language,
              notes := r.notes, alternatives := r.alternatives }
  let entry : HistoryItem :=
    { id := dbId, timestamp := dbTs, sourceText := srcAtIssue,
      translation := r.translation, sourceLang := r.detected_language,
      targetLang := r.target_language, is_favorite := false }
  let st2 : AppState :=
    if insertOk then { st1 with history := historyPrepend st1.history entry }
    else st1
  { st2 with loading := false }

/-- Continuation of `handleTranslate` when the remote call rejects
(src/App.tsx lines 194-199). -/
def handleTranslateFailure (st : AppState) : AppState :=
  { st with feedback := "Error translating text.", loading := false }

/-! ## Event drivers for the debounce timeline

`flushTimer` lets a pending debounce timer fire: the timer callback is
`handleTranslate` (line 148), whose request — when the guard passes —
carries the source text as it is at fire time.  `fireTimerIfDue` fires the
timer only when its deadline has been reached; `runEdits` delivers a
timeline of edit events in time order, firing any due timer before each
edit and letting a still-pending timer fire after the last edit.  The
second component collects the source texts of the issued requests. -/

def flushTimer (st : AppState) : AppState × List String :=
  match st.debounceTimer with
  | some _ =>
    let st1 : AppState := { st with debounceTimer := none }
    let p := handleTranslateStart st1
    (p.1, if p.2 then [p.1.sourceText] else [])
  | none => (st, [])

def fireTimerIfDue (st : AppState) (now : Nat) : AppState × List String :=
  match st.debounceTimer with
  | some d => if d ≤ now then flushTimer st else (st, [])
  | none => (st, [])

def runEdits : AppState → List (Nat × String) → AppState × List String
  | st, [] => flushTimer st
  | st, (t, txt) :: rest =>
    let p1 := fireTimerIfDue st t
    let st2 := debounceEffect p1.1 t txt
    let p2 := runEdits st2 rest
    (p2.1, p1.2 ++ p2.2)

/-! ## Orchestrator event traces (for the staleness analysis)

A trace interleaves edit events, timer firings and request settlements in
the order the single-threaded event loop runs them; a well-formed trace
settles only requests that were issued earlier (the settle event carries
the issuing request's captured source text and result). -/

inductive OrchEvent where
  | edit (now : Nat) (text : String)
  | timerFire (now : Nat)
  | settleSuccess (srcAtIssue : String) (r : TranslationResult)
      (insertOk : Bool) (dbId : String) (dbTs : Nat)
  | settleFailure

def orchStep (st : AppState) : OrchEvent → AppState
  | .edit now text => debounceEffect st now text
  | .timerFire _ => (handleTranslateStart { st with debounceTimer := none }).1
  | .settleSuccess src r ok dbId dbTs => handleTranslateSuccess st src r ok dbId dbTs
  | .settleFailure => handleTranslateFailure st

def orchRun (st : AppState) (events : List OrchEvent) : AppState :=
  events.foldl orchStep st

/-! ## handleSpeak (src/App.tsx lines 202-227)

The playback controller is the `isSpeaking` flag: `handleSpeak` is a
no-op when the text is empty or a playback is already active (line 203;
the returned flag records acceptance), otherwise it enters the speaking
state.  `settleSpeak` is the exit: natural completion via the `onended`
handler (lines 217-220) or any failure of synthesis, decode or playback
start caught at lines 222-226 — every exit returns the controller to the
idle state. -/

inductive SpeakOutcome where
  | playbackEnded
  | synthesisFailed
  | decodeFailed
  | startFailed
deriving DecidableEq, Repr

def handleSpeak (st : AppState) (text : String) : AppState × Bool :=
  if text = "" ∨ st.isSpeaking = true then (st, false)
  else ({ st with isSpeaking := true, feedback := "Speaking..." }, true)

def settleSpeak (st : AppState) : SpeakOutcome → AppState
  | .playbackEnded => { st with isSpeaking := false, feedback := "" }
  | .synthesisFailed => { st with isSpeaking := false, feedback := "Error generating speech." }
  | .decodeFailed => { st with isSpeaking := false, feedback := "Error generating speech." }
  | .startFailed => { st with isSpeaking := false, feedback := "Error generating speech." }

/-! ## Scenario states, concrete inputs and sequence predicates used by the claim theorems -/

/-- A history entry carrying a numeric id, for the 51-append scenario. -/
def numberedEntry (n : Nat) : HistoryItem :=
  { id := toString n, timestamp := n, sourceText := "s", translation := "t",
    sourceLang := "en", targetLang := "fr", is_favorite := false }

/-- Concrete result of the earlier (stale) request in the C1 scenario. -/
def resultStale : TranslationResult :=
  { detected_language := "en", source_country := "", source_language := "en",
    target_country := "FR", target_language := "fr",
    translation := "bonjour-stale",
    alternatives := [], notes := "",
    ui_suggestions := { primary_actions := [], microcopy := [] },
    tts := { enabled := false, voice_language_code := "", speak_text := "" } }

/-- Concrete result of the later (fresh) request in the C1 scenario. -/
def resultFresh : TranslationResult :=
  { resultStale with translation := "hola-fresh", target_language := "es" }

/-- Event-loop trace in which request A (for "hello") is issued at 500 ms,
request B (for "hola") is issued at 1100 ms, and B's response settles
first and is applied. -/
def staleTrace : List OrchEvent :=
  [.edit 0 "hello", .timerFire 500, .edit 600 "hola", .timerFire 1100,
   .settleSuccess "hola" resultFresh true "row-2" 1300]

/-- State after B's response has been applied. -/
def stateAfterFresh : AppState :=
  orchRun { initialAppState with user := true } staleTrace

/-- State after A's response settles late and is processed. -/
def stateAfterStale : AppState :=
  orchRun { initialAppState with user := true }
    (staleTrace ++ [.settleSuccess "hello" resultStale true "row-1" 1400])

/-- A state with a prior displayed result and a pending (not yet due)
debounce timer. -/
def emptySubmitState : AppState :=
  { initialAppState with
      user := true, sourceText := "old", targetText := "vieux",
      detectedLang := "en", alternatives := ["ancien"], notes := "note",
      debounceTimer := some 700 }

/-- A signed-out state with a displayed result, a history entry and a due
pending timer. -/
def loggedOutState : AppState :=
  { initialAppState with
      sourceText := "old", targetText := "shown",
      detectedLang := "en", alternatives := ["a"], notes := "n",
      history := [numberedEntry 7], debounceTimer := some 100 }

/-- A state in which a playback is active. -/
def speakingState : AppState :=
  { initialAppState with user := true, isSpeaking := true }

/-- Timing/content side conditions of the C3 scenario, as a decidable
check: each edit comes strictly after the previous one, within the 500 ms
quiet period, and with non-blank text. -/
def withinDebounceWindow : Nat → List (Nat × String) → Bool
  | _, [] => true
  | tPrev, (t, x) :: rest =>
    decide (tPrev < t) && decide (t < tPrev + 500) && !isBlank x &&
      withinDebounceWindow t rest

/-- Relative form of the window condition used for the induction: every
edit beats the currently pending deadline. -/
def chainBeatsDeadline : Nat → List (Nat × String) → Bool
  | _, [] => true
  | d, (t, x) :: rest =>
    decide (t < d) && !isBlank x && chainBeatsDeadline (t + 500) rest

/-- Text of the last edit of the sequence. -/
def lastEditText (x : String) : List (Nat × String) → String
  | [] => x
  | (_, y) :: rest => lastEditText y rest

/-- The spec scenario input: a JSON payload wrapped in markdown fencing. -/
def mdWrapped : String :=
  "```json\n\x7b\"detected_language\":\"en\",\"source_language\":\"en\",\"translation\":\"hi\",\"tts\":\x7b\"enabled\":true,\"voice_language_code\":\"en-US\",\"speak_text\":\"hi\"\x7d\x7d\n```"

/-- The brace-delimited object substring of `mdWrapped`. -/
def mdExtracted : String :=
  "\x7b\"detected_language\":\"en\",\"source_language\":\"en\",\"translation\":\"hi\",\"tts\":\x7b\"enabled\":true,\"voice_language_code\":\"en-US\",\"speak_text\":\"hi\"\x7d\x7d"

/-- The JSON value embedded in `mdWrapped`. -/
def mdWrappedValue : Json :=
  Json.obj [("detected_language", Json.str "en"), ("source_language", Json.str "en"),
    ("translation", Json.str "hi"),
    ("tts", Json.obj [("enabled", Json.bool true),
      ("voice_language_code", Json.str "en-US"), ("speak_text", Json.str "hi")])]

/-! ## Helper lemmas about the bounded history list -/

lemma take_append_take {α : Type} (xs ys : List α) (n : Nat) :
    (xs ++ ys.take n).take n = (xs ++ ys).take n := by
  rw [List.take_append_eq_append_take, List.take_append_eq_append_take, List.take_take,
    Nat.min_eq_left (Nat.sub_le n xs.length)]

lemma foldl_historyPrepend (items : List HistoryItem) :
    ∀ acc : List HistoryItem, acc.length ≤ 50 →
      List.foldl historyPrepend acc items = (items.reverse ++ acc).take 50 := by
  induction items with
  | nil =>
    intro acc h
    simpa using List.take_of_length_le h
  | cons e es ih =>
    intro acc h
    rw [List.foldl_cons, ih _ (by simp [historyPrepend])]
    show (es.reverse ++ (e :: acc).take 50).take 50 = ((e :: es).reverse ++ acc).take 50
    rw [take_append_take]
    simp

/-- C8: after any number of appends the history list never exceeds 50
entries and is ordered newest first — the fold of appends from the empty
list is the reverse of the insertion order, truncated to the 50 most
recent, so the oldest entries by insertion order are the ones evicted
(bounded FIFO); appending 51 entries with ids 1..51 in order yields the
ids 51..2 with id 1 evicted. -/
theorem history_bounded_fifo :
    (∀ (hist : List HistoryItem) (item : HistoryItem),
      (historyPrepend hist item).length ≤ 50) ∧
    (∀ items : List HistoryItem,
      List.foldl historyPrepend [] items = items.reverse.take 50) ∧
    (List.foldl historyPrepend [] ((List.range' 1 51).map numberedEntry)).map HistoryItem.id =
      (List.range' 2 50).reverse.map (fun n => toString n) := by
  refine ⟨?_, ?_, by decide⟩
  · intro hist item
    simp [historyPrepend]
  · intro items
    simpa using foldl_historyPrepend items [] (by simp)

/-! ## C1: staleness handling of translation responses -/

/-- C1 (counterexample): request A ("hello") is issued before request B
("hola"); A's response settles after B's response has been applied, yet it
is not discarded — it overwrites the displayed translation and appends a
history entry, so the displayed result corresponds to the stale request. -/
theorem stale_response_applied_cex :
    stateAfterFresh.targetText = "hola-fresh" ∧
    stateAfterStale.targetText = "bonjour-stale" ∧
    stateAfterStale.targetText ≠ stateAfterFresh.targetText ∧
    stateAfterFresh.history.map HistoryItem.sourceText = ["hola"] ∧
    stateAfterStale.history.map HistoryItem.sourceText = ["hello", "hola"] := by
  decide

/-- C1 (amended): a settling translation response is applied
unconditionally — the component keeps no request identifier and performs
no staleness comparison, so the display and the history reflect whichever
response settled most recently, even when its request was issued earlier
than an already-applied one. -/
theorem settle_applies_unconditionally (st : AppState) (src : String)
    (r : TranslationResult) (dbId : String) (dbTs : Nat) :
    (handleTranslateSuccess st src r true dbId dbTs).targetText = r.translation ∧
    (handleTranslateSuccess st src r true dbId dbTs).detectedLang = r.detected_language ∧
    (handleTranslateSuccess st src r true dbId dbTs).notes = r.notes ∧
    (handleTranslateSuccess st src r true dbId dbTs).alternatives = r.alternatives ∧
    (handleTranslateSuccess st src r true dbId dbTs).history =
      historyPrepend st.history
        { id := dbId, timestamp := dbTs, sourceText := src,
          translation := r.translation, sourceLang := r.detected_language,
          targetLang := r.target_language, is_favorite := false } :=
  ⟨rfl, rfl, rfl, rfl, rfl⟩

/-! ## C2: required-field validation of the response payload -/

/-- C2 (counterexample): the payload consisting of an empty object parses,
none of the required fields (`detected_language`, `source_language`,
`translation`, `tts`) is present, and yet `parseGeminiResponse` succeeds
instead of failing with the malformed-response error. -/
theorem parse_accepts_missing_required_fields_cex :
    parseGeminiResponse "\x7b\x7d" = Except.ok (Json.obj []) ∧
    (Json.obj []).getField "detected_language" = none ∧
    (Json.obj []).getField "source_language" = none ∧
    (Json.obj []).getField "translation" = none ∧
    (Json.obj []).getField "tts" = none :=
  ⟨rfl, rfl, rfl, rfl, rfl⟩

/-- C2 (amended): the validator performs no required-field checking — any
payload that parses as JSON is returned as-is, even when every one of the
fields `detected_language`, `source_language`, `translation` and `tts` is
absent; the required-field list appears only in the response schema sent
to the remote service, not in any local validation. -/
theorem parse_success_ignores_required_fields (t : String) (v : Json)
    (hparse : jsonParse t = Except.ok v)
    (hd : v.getField "detected_language" = none)
    (hs : v.getField "source_language" = none)
    (htr : v.getField "translation" = none)
    (htts : v.getField "tts" = none) :
    parseGeminiResponse t = Except.ok v := by
  unfold parseGeminiResponse
  rcases eq_or_ne t "" with h | h
  · subst h
    rw [show jsonParse "" = Except.error "Unexpected token in JSON" from rfl] at hparse
    simp at hparse
  · rw [if_neg h, hparse]

/-- C2 witness: the amended theorem applied to the empty-object payload. -/
theorem parse_success_ignores_required_fields_witness :
    parseGeminiResponse "\x7b\x7d" = Except.ok (Json.obj []) :=
  parse_success_ignores_required_fields "\x7b\x7d" (Json.obj []) rfl rfl rfl rfl rfl

/-! ## C4: empty or whitespace-only submissions -/

/-- C4: a submit whose source text is empty or whitespace-only immediately
clears the displayed result (translation, detected language, alternatives,
notes), cancels any pending debounce timer, and issues no translation
request — neither from a quiescent state nor by letting a pending
not-yet-due timer fire later. -/
theorem empty_submit_clears_and_cancels (st : AppState) (now : Nat) (txt : String)
    (hblank : isBlank txt = true) :
    debounceEffect st now txt =
      { st with
          sourceText := txt, debounceTimer := none,
          targetText := "", detectedLang := "", alternatives := [], notes := "" } ∧
    (st.debounceTimer = none → (runEdits st [(now, txt)]).2 = []) ∧
    (∀ d, st.debounceTimer = some d → now < d → (runEdits st [(now, txt)]).2 = []) := by
  refine ⟨by simp [debounceEffect, hblank], ?_, ?_⟩
  · intro h
    simp [runEdits, fireTimerIfDue, h, debounceEffect, hblank, flushTimer]
  · intro d hd hlt
    simp [runEdits, fireTimerIfDue, hd, Nat.not_le.mpr hlt, debounceEffect, hblank, flushTimer]

/-- C4 witness: a whitespace-only submit at 300 ms against a state with a
pending timer due at 700 ms clears the display, cancels the timer, and the
timeline issues no request. -/
theorem empty_submit_clears_and_cancels_witness :
    debounceEffect emptySubmitState 300 "   " =
      { emptySubmitState with
          sourceText := "   ", debounceTimer := none,
          targetText := "", detectedLang := "", alternatives := [], notes := "" } ∧
    (runEdits emptySubmitState [(300, "   ")]).2 = [] :=
  ⟨(empty_submit_clears_and_cancels emptySubmitState 300 "   " (by decide)).1,
   (empty_submit_clears_and_cancels emptySubmitState 300 "   " (by decide)).2.2 700 rfl
     (by decide)⟩

/-! ## C10: edits without an authenticated identity -/

/-- C10: an edit arriving while no authenticated identity is present
clears the translation display, starts no timer, and the timeline issues
no translation request and performs no history operation — even when a
pending timer was due, its `handleTranslate` callback returns at the
guard. -/
theorem unauthenticated_edit_is_inert (st : AppState) (now : Nat) (txt : String)
    (huser : st.user = false) :
    (debounceEffect st now txt).targetText = "" ∧
    (debounceEffect st now txt).detectedLang = "" ∧
    (debounceEffect st now txt).alternatives = [] ∧
    (debounceEffect st now txt).notes = "" ∧
    (debounceEffect st now txt).debounceTimer = none ∧
    (debounceEffect st now txt).history = st.history ∧
    (runEdits st [(now, txt)]).2 = [] ∧
    (runEdits st [(now, txt)]).1.history = st.history := by
  have hrun : (runEdits st [(now, txt)]).2 = [] ∧
      (runEdits st [(now, txt)]).1.history = st.history := by
    rcases htm : st.debounceTimer with _ | d
    · constructor <;>
        simp [runEdits, fireTimerIfDue, htm, flushTimer, debounceEffect, huser]
    · by_cases hle : d ≤ now
      · constructor <;>
          simp [runEdits, fireTimerIfDue, htm, hle, flushTimer, handleTranslateStart,
            huser, debounceEffect]
      · constructor <;>
          simp [runEdits, fireTimerIfDue, htm, hle, flushTimer, debounceEffect, huser]
  refine ⟨?_, ?_, ?_, ?_, ?_, ?_, hrun.1, hrun.2⟩ <;> simp [debounceEffect, huser]

/-- C10 witness: an edit at 250 ms (after the pending timer's 100 ms
deadline) in a signed-out state clears the display and issues no request,
leaving the history untouched. -/
theorem unauthenticated_edit_is_inert_witness :
    (debounceEffect loggedOutState 250 "hello").targetText = "" ∧
    (runEdits loggedOutState [(250, "hello")]).2 = [] ∧
    (runEdits loggedOutState [(250, "hello")]).1.history = loggedOutState.history :=
  ⟨(unauthenticated_edit_is_inert loggedOutState 250 "hello" rfl).1,
   (unauthenticated_edit_is_inert loggedOutState 250 "hello" rfl).2.2.2.2.2.2.1,
   (unauthenticated_edit_is_inert loggedOutState 250 "hello" rfl).2.2.2.2.2.2.2⟩

/-! ## C7: playback exclusivity and return to idle -/

/-- C7: at most one playback session is active at a time — a speak request
is rejected as a no-op whenever playback is already active or the text is
empty (no queueing, no interruption), and every settle outcome (natural
completion, synthesis failure, decode failure, playback-start failure)
returns the controller to the idle state; in particular two back-to-back
`speak "hello"` calls reject the second, and the state after the first
completes is idle. -/
theorem speak_exclusive_and_returns_idle :
    (∀ st t, (t = "" ∨ st.isSpeaking = true) → handleSpeak st t = (st, false)) ∧
    (∀ st o, (settleSpeak st o).isSpeaking = false) ∧
    handleSpeak (handleSpeak { initialAppState with user := true } "hello").1 "hello" =
      ((handleSpeak { initialAppState with user := true } "hello").1, false) ∧
    (settleSpeak (handleSpeak { initialAppState with user := true } "hello").1
      SpeakOutcome.playbackEnded).isSpeaking = false := by
  refine ⟨?_, ?_, by decide, by decide⟩
  · intro st t h
    simp [handleSpeak, h]
  · intro st o
    cases o <;> simp [settleSpeak]

/-- C7 witness: a speak request while playback is active is a no-op. -/
theorem speak_exclusive_and_returns_idle_witness :
    handleSpeak speakingState "world" = (speakingState, false) :=
  speak_exclusive_and_returns_idle.1 speakingState "world" (Or.inr rfl)

/-! ## C3: debounced coalescing of rapid edit sequences -/

lemma withinDebounceWindow_imp_chain :
    ∀ (rest : List (Nat × String)) (tPrev : Nat),
      withinDebounceWindow tPrev rest = true →
      chainBeatsDeadline (tPrev + 500) rest = true := by
  intro rest
  induction rest with
  | nil => intro tPrev _; rfl
  | cons e es ih =>
    intro tPrev h
    obtain ⟨t, x⟩ := e
    simp only [withinDebounceWindow, Bool.and_eq_true, decide_eq_true_eq] at h
    simp only [chainBeatsDeadline, Bool.and_eq_true, decide_eq_true_eq]
    exact ⟨⟨h.1.1.2, h.1.2⟩, ih t h.2⟩

lemma runEdits_chain :
    ∀ (rest : List (Nat × String)) (st : AppState) (d : Nat),
      st.user = true → st.debounceTimer = some d → isBlank st.sourceText = false →
      chainBeatsDeadline d rest = true →
      (runEdits st rest).2 = [lastEditText st.sourceText rest] := by
  intro rest
  induction rest with
  | nil =>
    intro st d huser htimer hblank _
    simp [runEdits, flushTimer, htimer, handleTranslateStart, huser, hblank, lastEditText]
  | cons e es ih =>
    intro st d huser htimer hblank hchain
    obtain ⟨t, x⟩ := e
    simp only [chainBeatsDeadline, Bool.and_eq_true, decide_eq_true_eq,
      Bool.not_eq_true'] at hchain
    obtain ⟨⟨hlt, hxb⟩, hrest⟩ := hchain
    have hfire : fireTimerIfDue st t = (st, []) := by
      simp [fireTimerIfDue, htimer, Nat.not_le.mpr hlt]
    have heff : debounceEffect st t x =
        { st with sourceText := x, debounceTimer := some (t + 500) } := by
      simp [debounceEffect, hxb, huser]
    simp only [runEdits, hfire, heff, List.nil_append, lastEditText]
    exact ih _ (t + 500) (by simp [huser]) rfl hxb hrest

/-- C3: for every finite sequence of non-blank edits whose inter-arrival
gaps are all shorter than the 500 ms quiet period of the
authenticated/cloud mode, exactly one translation request is issued, after
the last edit, and it carries the edit state as it is at timer-fire time —
the last edit of the sequence; every superseded pending timer is cancelled
outright and never fires (no other request appears in the timeline). -/
theorem debounce_single_request (st : AppState) (t1 : Nat) (x1 : String)
    (rest : List (Nat × String)) (huser : st.user = true)
    (htimer : st.debounceTimer = none) (hx1 : isBlank x1 = false)
    (hwin : withinDebounceWindow t1 rest = true) :
    (runEdits st ((t1, x1) :: rest)).2 = [lastEditText x1 rest] := by
  have hfire : fireTimerIfDue st t1 = (st, []) := by
    simp [fireTimerIfDue, htimer]
  have heff : debounceEffect st t1 x1 =
      { st with sourceText := x1, debounceTimer := some (t1 + 500) } := by
    simp [debounceEffect, hx1, huser]
  simp only [runEdits, hfire, heff, List.nil_append]
  exact runEdits_chain rest _ (t1 + 500) (by simp [huser]) rfl hx1
    (withinDebounceWindow_imp_chain rest t1 hwin)

/-- C3 witness: three rapid edits ("h", "he", "hel") at 0, 100 and 300 ms
from a quiescent authenticated state issue exactly the one request
"hel". -/
theorem debounce_single_request_witness :
    (runEdits { initialAppState with user := true }
      [(0, "h"), (100, "he"), (300, "hel")]).2 = [lastEditText "h" [(100, "he"), (300, "hel")]] :=
  debounce_single_request { initialAppState with user := true } 0 "h"
    [(100, "he"), (300, "hel")] rfl rfl (by decide) (by decide)

/-! ## Helper lemmas about the audio decoder -/

lemma bytesToInt16_length (data : List Nat) :
    (bytesToInt16 data).length = data.length / 2 := by
  simp [bytesToInt16]

lemma getD_map_range {α : Type} (n : Nat) (f : Nat → α) (k : Nat) (d : α)
    (hk : k < n) :
    (((List.range n).map f).getD k d) = f k := by
  rw [List.getD_eq_getElem?_getD, List.getElem?_map, List.getElem?_range hk]
  rfl

lemma bytesToInt16_getD (data : List Nat) (k : Nat) (hk : k < data.length / 2) :
    (bytesToInt16 data).getD k 0 =
      toInt16 (data.getD (2 * k) 0) (data.getD (2 * k + 1) 0) := by
  rw [bytesToInt16, getD_map_range _ _ _ _ hk]

lemma toInt16_range (lo hi : Nat) :
    -32768 ≤ toInt16 lo hi ∧ toInt16 lo hi ≤ 32767 := by
  simp only [toInt16]
  have h1 : lo % 256 < 256 := Nat.mod_lt _ (by norm_num)
  have h2 : hi % 256 < 256 := Nat.mod_lt _ (by norm_num)
  split <;> omega

lemma bytesToInt16_getD_range (data : List Nat) (k : Nat) :
    -32768 ≤ (bytesToInt16 data).getD k 0 ∧ (bytesToInt16 data).getD k 0 ≤ 32767 := by
  by_cases hk : k < data.length / 2
  · rw [bytesToInt16_getD data k hk]
    exact toInt16_range _ _
  · have hnone : (bytesToInt16 data)[k]? = none := by
      rw [List.getElem?_eq_none]
      rw [bytesToInt16_length]
      omega
    rw [List.getD_eq_getElem?_getD, hnone]
    norm_num

lemma sample_bounds (x : Int) (h1 : -32768 ≤ x) (h2 : x ≤ 32767) :
    -1 ≤ (x : ℚ) / 32768 ∧ (x : ℚ) / 32768 < 1 := by
  constructor
  · rw [le_div_iff₀ (by norm_num : (0:ℚ) < 32768)]
    have hx : (-32768 : ℚ) ≤ (x : ℚ) := by exact_mod_cast h1
    linarith
  · rw [div_lt_one (by norm_num : (0:ℚ) < 32768)]
    exact_mod_cast lt_of_le_of_lt h2 (by norm_num)

lemma decodeAudioData_ok (data : List Nat) (sampleRate numChannels : Nat)
    (hC : 0 < numChannels) (heven : data.length % 2 = 0)
    (hframes : 0 < data.length / 2 / numChannels) :
    decodeAudioData data sampleRate numChannels =
      .ok ((List.range numChannels).map fun channel =>
        (List.range (data.length / 2 / numChannels)).map fun i =>
          (((bytesToInt16 data).getD (i * numChannels + channel) 0 : Int) : ℚ) / 32768) := by
  unfold decodeAudioData
  rw [if_neg (by omega : ¬ data.length % 2 ≠ 0)]
  simp only [bytesToInt16_length]
  rw [if_neg (by omega : ¬ (numChannels = 0 ∨ data.length / 2 / numChannels = 0))]

/-- The interleaved read position of channel `c`'s sample `i` is inside
the complete frames. -/
lemma interleaved_index_bound (len C i c : Nat) (hc : c < C) (hi : i < len / 2 / C) :
    i * C + c < len / 2 := by
  have h1 : i * C + c < (i + 1) * C := by
    rw [Nat.succ_mul]
    exact Nat.add_lt_add_left hc _
  have h2 : (i + 1) * C ≤ (len / 2 / C) * C :=
    Nat.mul_le_mul_right _ (Nat.succ_le_of_lt hi)
  exact lt_of_lt_of_le h1 (le_trans h2 (Nat.div_mul_le_self _ _))

/-- Common explicit description of a successful decode: channel count,
per-channel lengths, the per-sample formula and the sample range. -/
lemma decode_ok_explicit (data : List Nat) (numChannels : Nat)
    (hC : 0 < numChannels) (heven : data.length % 2 = 0)
    (hframes : 0 < data.length / 2 / numChannels) :
    ∃ chans : List (List ℚ),
      decodeAudioData data 24000 numChannels = .ok chans ∧
      chans.length = numChannels ∧
      (∀ ch ∈ chans, ch.length = data.length / 2 / numChannels) ∧
      (∀ c, c < numChannels → ∀ i, i < data.length / 2 / numChannels →
        (chans.getD c []).getD i 0 =
          ((toInt16 (data.getD (2 * (i * numChannels + c)) 0)
                    (data.getD (2 * (i * numChannels + c) + 1) 0) : Int) : ℚ) / 32768) ∧
      (∀ ch ∈ chans, ∀ q ∈ ch, -1 ≤ q ∧ q < 1) := by
  refine ⟨_, decodeAudioData_ok data 24000 numChannels hC heven hframes, ?_, ?_, ?_, ?_⟩
  · simp
  · intro ch hch
    simp only [List.mem_map, List.mem_range] at hch
    obtain ⟨c, hc, rfl⟩ := hch
    simp
  · intro c hc i hi
    rw [getD_map_range _ _ _ _ hc, getD_map_range _ _ _ _ hi,
      bytesToInt16_getD data _ (interleaved_index_bound data.length numChannels i c hc hi)]
  · intro ch hch q hq
    simp only [List.mem_map, List.mem_range] at hch
    obtain ⟨c, hc, rfl⟩ := hch
    simp only [List.mem_map, List.mem_range] at hq
    obtain ⟨i, hi, rfl⟩ := hq
    exact sample_bounds _ (bytesToInt16_getD_range data _).1 (bytesToInt16_getD_range data _).2

/-! ## C5: decode on buffers whose length is a multiple of 2·channelCount -/

/-- C5 (counterexample): for the length-0 buffer (a multiple of
2·channelCount) decode does not return an empty sample array per channel —
the zero-frame `createBuffer` allocation throws `NotSupportedError`, so
decode is not total on that input. -/
theorem decode_empty_buffer_errors_cex :
    decodeAudioData [] 24000 1 =
      .error "NotSupportedError: createBuffer requires at least one channel and one frame" := rfl

/-- C5 (amended): for every byte buffer whose length is a positive
multiple of 2·channelCount (with 1 ≤ channelCount ≤ 32, the universally
supported channel range), decode is deterministic and total and returns
channelCount independent sample arrays of equal length
floor(#16-bit-samples / channelCount), where channel c's sample i equals
the signed 16-bit little-endian integer at interleaved position
i·channelCount+c divided by 32768, hence lies in [-1, 1); for the
length-0 buffer decode instead fails, because the zero-frame buffer
allocation is rejected by the platform. -/
theorem decode_complete_frames_spec (data : List Nat) (numChannels : Nat)
    (hC : 0 < numChannels) (hC32 : numChannels ≤ 32)
    (hlen : data.length % (2 * numChannels) = 0) (hpos : 0 < data.length) :
    ∃ chans : List (List ℚ),
      decodeAudioData data 24000 numChannels = .ok chans ∧
      chans.length = numChannels ∧
      (∀ ch ∈ chans, ch.length = data.length / 2 / numChannels) ∧
      (∀ c, c < numChannels → ∀ i, i < data.length / 2 / numChannels →
        (chans.getD c []).getD i 0 =
          ((toInt16 (data.getD (2 * (i * numChannels + c)) 0)
                    (data.getD (2 * (i * numChannels + c) + 1) 0) : Int) : ℚ) / 32768) ∧
      (∀ ch ∈ chans, ∀ q ∈ ch, -1 ≤ q ∧ q < 1) := by
  obtain ⟨m, hm⟩ := Nat.dvd_of_mod_eq_zero hlen
  have hm0 : 0 < m := by
    by_contra h0
    push_neg at h0
    rw [Nat.le_zero.mp h0, Nat.mul_zero] at hm
    omega
  have hdiv2 : data.length / 2 = numChannels * m := by
    rw [hm, mul_assoc]
    exact Nat.mul_div_cancel_left _ (by norm_num)
  have hframes : 0 < data.length / 2 / numChannels := by
    rw [hdiv2, Nat.mul_div_cancel_left _ hC]
    exact hm0
  have heven : data.length % 2 = 0 := by
    rw [hm, mul_assoc]
    exact Nat.mul_mod_right _ _
  exact decode_ok_explicit data numChannels hC heven hframes

/-- C5 witness: the amended theorem applied to the 4-byte stereo buffer
`[0, 128, 255, 127]` (one complete frame per channel). -/
theorem decode_complete_frames_spec_witness :
    ∃ chans : List (List ℚ),
      decodeAudioData [0, 128, 255, 127] 24000 2 = .ok chans ∧
      chans.length = 2 ∧
      (∀ ch ∈ chans, ch.length = (4 : Nat) / 2 / 2) ∧
      (∀ c, c < 2 → ∀ i, i < (4 : Nat) / 2 / 2 →
        (chans.getD c []).getD i 0 =
          ((toInt16 (([0, 128, 255, 127] : List Nat).getD (2 * (i * 2 + c)) 0)
                    (([0, 128, 255, 127] : List Nat).getD (2 * (i * 2 + c) + 1) 0) : Int) : ℚ) / 32768) ∧
      (∀ ch ∈ chans, ∀ q ∈ ch, -1 ≤ q ∧ q < 1) :=
  decode_complete_frames_spec [0, 128, 255, 127] 2 (by decide) (by decide) (by decide)
    (by decide)

/-! ## C6: decode on buffers with a partial trailing frame -/

/-- C6 (counterexample): a 3-byte buffer (length not a multiple of
2·channelCount) makes decode error — the `Int16Array` view over an
odd-length buffer throws a `RangeError` — contradicting that decode never
errors on such inputs. -/
theorem decode_odd_length_errors_cex :
    decodeAudioData [0, 0, 0] 24000 1 =
      .error "RangeError: byte length of Int16Array should be a multiple of 2" := rfl

/-- C6 (amended): for every byte buffer of even length containing at least
one complete frame (1 ≤ channelCount ≤ 32), decode does not error: the
partial trailing frame (incomplete across channels) is silently dropped —
each channel has exactly floor(#16-bit-samples / channelCount) samples —
and the remaining complete frames are decoded normally; odd-length buffers
error at the 16-bit view construction, and buffers with no complete frame
error at the buffer allocation. -/
theorem decode_even_drops_partial_frame (data : List Nat) (numChannels : Nat)
    (hC : 0 < numChannels) (hC32 : numChannels ≤ 32)
    (heven : data.length % 2 = 0) (hframes : 0 < data.length / 2 / numChannels) :
    ∃ chans : List (List ℚ),
      decodeAudioData data 24000 numChannels = .ok chans ∧
      chans.length = numChannels ∧
      (∀ ch ∈ chans, ch.length = data.length / 2 / numChannels) ∧
      (∀ c, c < numChannels → ∀ i, i < data.length / 2 / numChannels →
        (chans.getD c []).getD i 0 =
          ((toInt16 (data.getD (2 * (i * numChannels + c)) 0)
                    (data.getD (2 * (i * numChannels + c) + 1) 0) : Int) : ℚ) / 32768) :=
  match decode_ok_explicit data numChannels hC heven hframes with
  | ⟨chans, h1, h2, h3, h4, _⟩ => ⟨chans, h1, h2, h3, h4⟩

/-- C6 witness: the amended theorem applied to the 6-byte stereo buffer
`[0, 128, 255, 127, 1, 0]` — three 16-bit samples across two channels
yield one complete frame, and the trailing partial frame is dropped. -/
theorem decode_even_drops_partial_frame_witness :
    ∃ chans : List (List ℚ),
      decodeAudioData [0, 128, 255, 127, 1, 0] 24000 2 = .ok chans ∧
      chans.length = 2 ∧
      (∀ ch ∈ chans, ch.length = (6 : Nat) / 2 / 2) ∧
      (∀ c, c < 2 → ∀ i, i < (6 : Nat) / 2 / 2 →
        (chans.getD c []).getD i 0 =
          ((toInt16 (([0, 128, 255, 127, 1, 0] : List Nat).getD (2 * (i * 2 + c)) 0)
                    (([0, 128, 255, 127, 1, 0] : List Nat).getD (2 * (i * 2 + c) + 1) 0) : Int) : ℚ) / 32768) :=
  decode_even_drops_partial_frame [0, 128, 255, 127, 1, 0] 2 (by decide) (by decide)
    (by decide) (by decide)


/-! ## C9: the validator recovery policy -/

/-- C9: the validator attempts a direct structured parse of the raw text
first and returns its result on success; if it fails, the substring from
the first opening brace to the last closing brace is extracted and parsed,
so a payload wrapped in markdown fencing or prose still succeeds; if both
attempts fail — or no brace-delimited substring exists — it fails with the
malformed-response error and applies no further heuristics. -/
theorem parse_fallback_policy :
    (∀ t v, t ≠ "" → jsonParse t = Except.ok v →
      parseGeminiResponse t = Except.ok v) ∧
    (∀ t e sub v, t ≠ "" → jsonParse t = Except.error e →
      extractJsonSubstring t.data = some sub →
      jsonParse (String.mk sub) = Except.ok v →
      parseGeminiResponse t = Except.ok v) ∧
    (∀ t e, t ≠ "" → jsonParse t = Except.error e →
      extractJsonSubstring t.data = none →
      parseGeminiResponse t = Except.error "Invalid translation response format") ∧
    (∀ t e sub e2, t ≠ "" → jsonParse t = Except.error e →
      extractJsonSubstring t.data = some sub →
      jsonParse (String.mk sub) = Except.error e2 →
      parseGeminiResponse t = Except.error "Invalid translation response format") := by
  refine ⟨?_, ?_, ?_, ?_⟩
  · intro t v ht hp
    unfold parseGeminiResponse
    rw [if_neg ht, hp]
  · intro t e sub v ht hp hx hs
    unfold parseGeminiResponse
    rw [if_neg ht]
    simp only [hp, hx, hs]
  · intro t e ht hp hx
    unfold parseGeminiResponse
    rw [if_neg ht]
    simp only [hp, hx]
  · intro t e sub e2 ht hp hx hs
    unfold parseGeminiResponse
    rw [if_neg ht]
    simp only [hp, hx, hs]

set_option maxRecDepth 100000 in
/-- C9 witness: the fallback branch applied to the markdown-wrapped
payload of the spec scenario — the embedded object is extracted and
parsed despite the wrapping. -/
theorem parse_fallback_policy_witness :
    parseGeminiResponse mdWrapped = Except.ok mdWrappedValue :=
  parse_fallback_policy.2.1 mdWrapped "Unexpected token in JSON" mdExtracted.data
    mdWrappedValue (by decide) rfl rfl rfl
